import Mathlib

/-!
# Signal generator firmware: packet decoding and register programming

A shallow embedding of `src/signal_uart/src/helloworld.c`.

* Bytes (`u8`) and words (`u32`) are natural numbers; every place where the C
  code converts to `u8` or `u32` is an explicit `% 2 ^ 8` or `% 2 ^ 32`.
* A `u8` buffer is a `List Nat`; `IsFrame` says that it has `PACKET_SIZE`
  cells and that every cell holds a byte.
* Calls into the board support package are recorded as `Event`s, in program
  order: a byte handed to `XUartLite_Send`, a call of `sleep`, a call of
  `XGpio_WriteReg`.  The bytes that the serial line will deliver are a list,
  consumed from the front by `XUartLite_Recv`.
* `XPAR_WAVEFORM_IP_0_BASEADDR` comes from a generated header that is not part
  of the sources; it is the parameter `base` throughout.
-/

namespace SignalGen

/-! ## Constants -/

def REG2_OFFSET : Nat := 0x4
def REG3_OFFSET : Nat := 0x8
def REG4_OFFSET : Nat := 0xC
def REG5_OFFSET : Nat := 0x10

def PACKET_SIZE : Nat := 9

def ACK_SUCCESS : Nat := 0xA1
def ERR_START_OF_MESSAGE : Nat := 0xE1
def ERR_MESSAGE_LENGTH : Nat := 0xE2
def ERR_COMMAND_CODE : Nat := 0xE3
def ERR_CHECKSUM : Nat := 0xE4
def ERR_END_OF_MESSAGE : Nat := 0xE5

/-- Status codes of the Xilinx drivers (`xstatus.h`). -/
def XST_SUCCESS : Int := 0
def XST_FAILURE : Int := 1

/-! ## Machine integers and buffers -/

/-- Conversion of a non-negative value to `u8`. -/
def u8 (x : Nat) : Nat := x % 2 ^ 8

/-- Conversion of a non-negative value to `u32`. -/
def u32 (x : Nat) : Nat := x % 2 ^ 32

/-- Conversion of a signed value to `u32`, as in `u32 previous_pri = -1`. -/
def u32OfInt (x : Int) : Nat := (x % 2 ^ 32).toNat

/-- The cell `data[i]` of a `u8` buffer. -/
def rd (data : List Nat) (i : Nat) : Nat := data.getD i 0

/-- A well-formed receive buffer: `PACKET_SIZE` cells, each holding a byte. -/
def IsFrame (f : List Nat) : Prop := f.length = PACKET_SIZE ∧ ∀ b ∈ f, b < 256

instance (f : List Nat) : Decidable (IsFrame f) := by
  unfold IsFrame; infer_instance

/-! ## Observable actions -/

/-- Calls into the board support package, in program order. -/
inductive Event where
  /-- The call `XUartLite_Send(&UartLiteInst, &ackByte, 1)`. -/
  | send (byte : Nat)
  /-- The call `sleep(seconds)`. -/
  | sleep (seconds : Nat)
  /-- The call `XGpio_WriteReg(base, offset, data)`. -/
  | writeReg (base offset data : Nat)
  deriving DecidableEq, Repr

/-- The acknowledgment bytes of a trace, in order. -/
def acksOf : List Event → List Nat
  | [] => []
  | Event.send b :: es => b :: acksOf es
  | _ :: es => acksOf es

/-- The register writes `(offset, data)` of a trace, in order. -/
def regWrites : List Event → List (Nat × Nat)
  | [] => []
  | Event.writeReg _ off v :: es => (off, v) :: regWrites es
  | _ :: es => regWrites es

/-- The arguments of the `sleep` calls of a trace, in order. -/
def sleepsOf : List Event → List Nat
  | [] => []
  | Event.sleep n :: es => n :: sleepsOf es
  | _ :: es => sleepsOf es

/-! ## `CalculateChecksum` -/

/-- The loop `for (int i = 2; i < length - 2; i++) checksum ^= data[i];`
started at index `i` with accumulator `checksum`.  The first argument bounds
the number of iterations. -/
def CalculateChecksum.loop (data : List Nat) (length : Int) : Nat → Nat → Nat → Nat
  | 0, _, checksum => checksum
  | fuel + 1, i, checksum =>
    if (i : Int) < length - 2 then
      CalculateChecksum.loop data length fuel (i + 1) (u8 (checksum ^^^ rd data i))
    else checksum

/-- The function `u8 CalculateChecksum(u8* data, int length)`.  The loop runs
fewer than `length` times, so `length.toNat` iterations are enough. -/
def CalculateChecksum (data : List Nat) (length : Int) : Nat :=
  CalculateChecksum.loop data length length.toNat 2 0

/-! ## `SendAck`, `ReceiveUartPacket` -/

/-- The function `int SendAck(u8 ackByte)`: one byte is handed to the UART. -/
def SendAck (ackByte : Nat) : List Event := [Event.send ackByte]

/-- The loop of `ReceiveUartPacket`: `n` more cells are to be filled, starting
at index `i`.  Each cell waits until `XUartLite_Recv` delivers one byte; when
the line delivers nothing more the wait never ends (`none`). -/
def ReceiveUartPacket.loop : Nat → Nat → List Nat → List Nat → Option (List Nat × List Nat)
  | 0, _, buffer, rx => some (buffer, rx)
  | _ + 1, _, _, [] => none
  | n + 1, i, buffer, b :: rx => ReceiveUartPacket.loop n (i + 1) (buffer.set i b) rx

/-- The function `int ReceiveUartPacket(u8* buffer)`: the filled buffer and the
bytes still on the line. -/
def ReceiveUartPacket (buffer rx : List Nat) : Option (List Nat × List Nat) :=
  ReceiveUartPacket.loop PACKET_SIZE 0 buffer rx

/-! ## `DecodePacket` -/

/-- What a call of `DecodePacket` leaves behind: the returned `int`, the
contents of `*pri` and `*pw`, and the bytes it sent. -/
structure DecodeResult where
  ret : Int
  pri : Nat
  pw : Nat
  sent : List Event
  deriving DecidableEq, Repr

/-- The function `int DecodePacket(u8* packet, u32* pri, u32* pw)`; the
arguments `pri` and `pw` are the contents of the two out-parameters on
entry. -/
def DecodePacket (packet : List Nat) (pri pw : Nat) : DecodeResult :=
  if rd packet 0 ≠ 0xC9 then
    ⟨0, pri, pw, SendAck ERR_START_OF_MESSAGE⟩
  else if rd packet 8 ≠ 0xCE then
    ⟨0, pri, pw, SendAck ERR_END_OF_MESSAGE⟩
  else if rd packet 1 ≠ 0x05 then
    ⟨0, pri, pw, SendAck ERR_MESSAGE_LENGTH⟩
  else if rd packet 2 ≠ 0x01 then
    ⟨0, pri, pw, SendAck ERR_COMMAND_CODE⟩
  else
    let received_checksum := rd packet 7
    let calculated_checksum := CalculateChecksum packet PACKET_SIZE
    if received_checksum ≠ calculated_checksum then
      ⟨0, pri, pw, SendAck ERR_CHECKSUM⟩
    else
      let pw1 := u32 ((rd packet 3 <<< 8) ||| rd packet 4)
      let pri1 := u32 ((rd packet 5 <<< 8) ||| rd packet 6)
      ⟨1, pri1, pw1, SendAck ACK_SUCCESS⟩

/-! ## `main` -/

/-- The variables of `main` that live across loop iterations, and the
registers of the waveform block, indexed by bus address. -/
structure State where
  received_packet : List Nat
  pri_value : Nat
  pw_value : Nat
  previous_pri : Nat
  previous_pw : Nat
  regs : Nat → Nat

/-- The effect of `XGpio_WriteReg(base, offset, data)` on the registers: a
32-bit store at `base + offset`. -/
def XGpio_WriteReg (base offset data : Nat) (regs : Nat → Nat) : Nat → Nat :=
  fun a => if a = base + offset then u32 data else regs a

/-- The four `XGpio_WriteReg` calls of the loop body, as events. -/
def updateEvents (base pri_value pw_value : Nat) : List Event :=
  [ Event.writeReg base REG2_OFFSET (u32 (u32 (pw_value * 100) + 200)),
    Event.writeReg base REG3_OFFSET 100,
    Event.writeReg base REG4_OFFSET (u32 (pri_value * 100)),
    Event.writeReg base REG5_OFFSET (u32 (u32 (pw_value * 100) + 100)) ]

/-- The four `XGpio_WriteReg` calls of the loop body, as stores. -/
def updateRegs (base pri_value pw_value : Nat) (regs : Nat → Nat) : Nat → Nat :=
  XGpio_WriteReg base REG5_OFFSET (u32 (u32 (pw_value * 100) + 100))
    (XGpio_WriteReg base REG4_OFFSET (u32 (pri_value * 100))
      (XGpio_WriteReg base REG3_OFFSET 100
        (XGpio_WriteReg base REG2_OFFSET (u32 (u32 (pw_value * 100) + 200)) regs)))

/-- One pass through the body of `while (1)` in `main`: the state afterwards,
the bytes still on the line, and the events of the pass.  `none` when
`ReceiveUartPacket` never returns. -/
def loopBody (base : Nat) (s : State) (rx : List Nat) :
    Option (State × List Nat × List Event) :=
  match ReceiveUartPacket s.received_packet rx with
  | none => none
  | some (buf, rx1) =>
    let d := DecodePacket buf s.pri_value s.pw_value
    let s1 : State := { s with received_packet := buf, pri_value := d.pri, pw_value := d.pw }
    if d.ret ≠ 0 then
      if s1.pri_value ≠ s1.previous_pri ∨ s1.pw_value ≠ s1.previous_pw then
        some ({ s1 with
                  regs := updateRegs base s1.pri_value s1.pw_value s1.regs
                  previous_pri := s1.pri_value
                  previous_pw := s1.pw_value },
              rx1,
              d.sent ++ [Event.sleep 1] ++ updateEvents base s1.pri_value s1.pw_value)
      else
        some (s1, rx1, d.sent ++ [Event.sleep 1])
    else
      some (s1, rx1, d.sent)

/-- The four `XGpio_WriteReg` calls of `main` before the loop, as events. -/
def coldStartEvents (base : Nat) : List Event :=
  [ Event.writeReg base REG2_OFFSET (u32 (2 * 100 + 200)),
    Event.writeReg base REG3_OFFSET 100,
    Event.writeReg base REG4_OFFSET (u32 (500 * 100)),
    Event.writeReg base REG5_OFFSET (u32 (2 * 100 + 100)) ]

/-- The four `XGpio_WriteReg` calls of `main` before the loop, as stores. -/
def coldStartRegs (base : Nat) (regs : Nat → Nat) : Nat → Nat :=
  XGpio_WriteReg base REG5_OFFSET (u32 (2 * 100 + 100))
    (XGpio_WriteReg base REG4_OFFSET (u32 (500 * 100))
      (XGpio_WriteReg base REG3_OFFSET 100
        (XGpio_WriteReg base REG2_OFFSET (u32 (2 * 100 + 200)) regs)))

/-- The loop `while (1)` of `main`, cut off after `n` passes, or earlier when
`ReceiveUartPacket` waits for a byte that never comes: the state reached, the
bytes still on the line, and the events so far. -/
def mainLoop (base : Nat) : Nat → State → List Nat → State × List Nat × List Event
  | 0, s, rx => (s, rx, [])
  | n + 1, s, rx =>
    match loopBody base s rx with
    | none => (s, rx, [])
    | some (s1, rx1, ev) =>
      let r := mainLoop base n s1 rx1
      (r.1, r.2.1, ev ++ r.2.2)

/-- What is known of a run of `main`: the value it returned, if it did, the
state, the bytes still on the line, and the events in program order. -/
structure Outcome where
  returned : Option Int
  state : State
  rx : List Nat
  trace : List Event

/-- The function `int main()`, with the loop cut off after `n` passes.
`Status` is what `XUartLite_Initialize` returned.  `s0` holds the contents of
the uninitialised locals and of the registers on entry; `init_platform` has no
effect on any of them. -/
def main (base : Nat) (Status : Int) (s0 : State) (rx : List Nat) (n : Nat) : Outcome :=
  let s : State := { s0 with previous_pri := u32OfInt (-1), previous_pw := u32OfInt (-1) }
  if Status ≠ XST_SUCCESS then
    ⟨some XST_FAILURE, s, rx, []⟩
  else
    let s1 : State := { s with regs := coldStartRegs base s.regs }
    let r := mainLoop base n s1 rx
    ⟨none, r.1, r.2.1, coldStartEvents base ++ r.2.2⟩

/-! ## Frames and states used as instances -/

/-- An accepted frame used to instantiate the statements below: `pw = 2`,
`pri = 1000`, checksum `0x01 ^ 0x00 ^ 0x02 ^ 0x03 ^ 0xE8 = 0xE8`. -/
def goodFrame : List Nat := [0xC9, 0x05, 0x01, 0x00, 0x02, 0x03, 0xE8, 0xE8, 0xCE]

/-- A state of `main` used to instantiate the statements below: the buffer
holds zeros, the cached pair is the cold-start pair `(500, 2)`, and every
register reads zero. -/
def idleState : State :=
  { received_packet := [0, 0, 0, 0, 0, 0, 0, 0, 0]
    pri_value := 0
    pw_value := 0
    previous_pri := 500
    previous_pw := 2
    regs := fun _ => 0 }

/-- A frame with a bad start byte, a bad length byte and a bad end byte. -/
def badFrame : List Nat := [0x00, 0x04, 0x01, 0x00, 0x02, 0x03, 0xE8, 0xE8, 0x00]

/-- The frame of the round-trip property as the specification words it: PW in
bytes 3-4, PRI in bytes 5-6, and the checksum byte CMD xor PW_HI xor PW_LO xor
PRI_HI. -/
def specFrame (pri pw : Nat) : List Nat :=
  [0xC9, 0x05, 0x01, pw >>> 8, pw &&& 0xFF, pri >>> 8, pri &&& 0xFF,
    0x01 ^^^ (pw >>> 8) ^^^ (pw &&& 0xFF) ^^^ (pri >>> 8), 0xCE]

/-- The same frame with the checksum byte taken over all five bytes between
the length byte and the checksum byte: CMD xor PW_HI xor PW_LO xor PRI_HI xor
PRI_LO. -/
def encodeFrame (pri pw : Nat) : List Nat :=
  [0xC9, 0x05, 0x01, pw >>> 8, pw &&& 0xFF, pri >>> 8, pri &&& 0xFF,
    0x01 ^^^ (pw >>> 8) ^^^ (pw &&& 0xFF) ^^^ (pri >>> 8) ^^^ (pri &&& 0xFF), 0xCE]

/-- The frame of the scenario "Valid minimal" as the specification prints it,
with the checksum byte 0xEA. -/
def scenarioFrame : List Nat := [0xC9, 0x05, 0x01, 0x00, 0x02, 0x03, 0xE8, 0xEA, 0xCE]

/-- The contents of the four registers of the waveform block, REG2 to REG5. -/
def readRegs (base : Nat) (regs : Nat → Nat) : Nat × Nat × Nat × Nat :=
  (regs (base + REG2_OFFSET), regs (base + REG3_OFFSET), regs (base + REG4_OFFSET),
    regs (base + REG5_OFFSET))

/-- The parameters of the most recently accepted frame of a sequence of
frames, `o` when no frame of the sequence is accepted. -/
def lastAcceptedFrom (o : Option (Nat × Nat)) : List (List Nat) → Option (Nat × Nat)
  | [] => o
  | f :: fs =>
    if (DecodePacket f 0 0).ret ≠ 0 then
      lastAcceptedFrom (some ((DecodePacket f 0 0).pri, (DecodePacket f 0 0).pw)) fs
    else lastAcceptedFrom o fs

/-- The parameters of the most recently accepted frame of a sequence of
frames, if any frame was accepted. -/
def lastAccepted (fs : List (List Nat)) : Option (Nat × Nat) := lastAcceptedFrom none fs

/-- The register contents that belong to the most recently accepted
parameters `(pri, pw)`, and the cold-start contents when there are none. -/
def expectedRegs : Option (Nat × Nat) → Nat × Nat × Nat × Nat
  | none => (400, 100, 50000, 300)
  | some (pri, pw) => (pw * 100 + 200, 100, pri * 100, pw * 100 + 100)

/-- The link between the registers, the cached pair and the frames seen so
far: the registers hold the values for the most recently accepted parameters,
and the cache holds those parameters, or a value no frame decodes to while
nothing has been accepted. -/
def Tracks (base : Nat) (s : State) (o : Option (Nat × Nat)) : Prop :=
  s.received_packet.length = PACKET_SIZE ∧
  readRegs base s.regs = expectedRegs o ∧
  match o with
  | none => 65535 < s.previous_pri
  | some (pri, pw) => s.previous_pri = pri ∧ s.previous_pw = pw


/-- The frame for `(pri, pw)` with a given checksum byte: PW in bytes 3-4, PRI
in bytes 5-6, both big-endian. -/
def frameWithChk (pri pw chk : Nat) : List Nat :=
  [0xC9, 0x05, 0x01, pw >>> 8, pw &&& 0xFF, pri >>> 8, pri &&& 0xFF, chk, 0xCE]

/-! ## Auxiliary facts -/

theorem length_nine {f : List Nat} (h : f.length = PACKET_SIZE) :
    ∃ b0 b1 b2 b3 b4 b5 b6 b7 b8, f = [b0, b1, b2, b3, b4, b5, b6, b7, b8] := by
  match f, h with
  | [b0, b1, b2, b3, b4, b5, b6, b7, b8], _ => exact ⟨b0, b1, b2, b3, b4, b5, b6, b7, b8, rfl⟩

theorem u8_of_lt {x : Nat} (h : x < 256) : u8 x = x := by
  unfold u8; exact Nat.mod_eq_of_lt h

theorem u32_of_lt {x : Nat} (h : x < 4294967296) : u32 x = x := by
  unfold u32; exact Nat.mod_eq_of_lt h

theorem xor_byte {a b : Nat} (ha : a < 256) (hb : b < 256) : a ^^^ b < 256 :=
  Nat.xor_lt_two_pow (n := 8) ha hb

theorem shl8_or {a b : Nat} (hb : b < 256) : (a <<< 8) ||| b = a * 256 + b := by
  have h := Nat.mul_add_lt_is_or (i := 8) hb a
  rw [Nat.shiftLeft_eq, Nat.mul_comm a (2 ^ 8), ← h]

/-- Over a nine-cell buffer the loop of `CalculateChecksum` visits the indices
2, 3, 4, 5 and 6. -/
theorem CalculateChecksum_nine (b0 b1 b2 b3 b4 b5 b6 b7 b8 : Nat) :
    CalculateChecksum [b0, b1, b2, b3, b4, b5, b6, b7, b8] 9 =
      u8 (u8 (u8 (u8 (u8 b2 ^^^ b3) ^^^ b4) ^^^ b5) ^^^ b6) := by
  simp [CalculateChecksum, CalculateChecksum.loop, rd]

theorem CalculateChecksum_bytes {b0 b1 b2 b3 b4 b5 b6 b7 b8 : Nat}
    (h2 : b2 < 256) (h3 : b3 < 256) (h4 : b4 < 256) (h5 : b5 < 256) (h6 : b6 < 256) :
    CalculateChecksum [b0, b1, b2, b3, b4, b5, b6, b7, b8] 9 =
      b2 ^^^ b3 ^^^ b4 ^^^ b5 ^^^ b6 := by
  rw [CalculateChecksum_nine, u8_of_lt h2, u8_of_lt (xor_byte h2 h3),
    u8_of_lt (xor_byte (xor_byte h2 h3) h4),
    u8_of_lt (xor_byte (xor_byte (xor_byte h2 h3) h4) h5),
    u8_of_lt (xor_byte (xor_byte (xor_byte (xor_byte h2 h3) h4) h5) h6)]

theorem ReceiveUartPacket_frame {buffer f : List Nat} (rest : List Nat)
    (hb : buffer.length = PACKET_SIZE) (hf : f.length = PACKET_SIZE) :
    ReceiveUartPacket buffer (f ++ rest) = some (f, rest) := by
  obtain ⟨a0, a1, a2, a3, a4, a5, a6, a7, a8, rfl⟩ := length_nine hb
  obtain ⟨b0, b1, b2, b3, b4, b5, b6, b7, b8, rfl⟩ := length_nine hf
  rfl

theorem hi_lo (x : Nat) (hx : x ≤ 65535) :
    x >>> 8 < 256 ∧ x &&& 0xFF < 256 ∧ ((x >>> 8) <<< 8) ||| (x &&& 0xFF) = x := by
  have hlo : x &&& 0xFF = x % 256 := Nat.and_pow_two_sub_one_eq_mod x 8
  have hhi : x >>> 8 = x / 256 := Nat.shiftRight_eq_div_pow x 8
  have h1 : x % 256 < 256 := Nat.mod_lt _ (by norm_num)
  refine ⟨by rw [hhi]; omega, by rw [hlo]; exact h1, ?_⟩
  rw [hlo, shl8_or h1, hhi]; omega

/-- The two outcomes of `DecodePacket`: either all five checks pass, the call
returns 1 with both fields extracted and 0xA1 sent, or it returns 0, leaves
the out-parameters alone and sends one error code. -/
theorem DecodePacket_cases (f : List Nat) (p0 w0 : Nat) :
    (DecodePacket f p0 w0 =
        ⟨1, u32 ((rd f 5 <<< 8) ||| rd f 6), u32 ((rd f 3 <<< 8) ||| rd f 4),
          [Event.send 0xA1]⟩ ∧
      rd f 0 = 0xC9 ∧ rd f 8 = 0xCE ∧ rd f 1 = 0x05 ∧ rd f 2 = 0x01 ∧
      rd f 7 = CalculateChecksum f 9) ∨
    (∃ code, code ∈ [0xE1, 0xE2, 0xE3, 0xE4, 0xE5] ∧
      DecodePacket f p0 w0 = ⟨0, p0, w0, [Event.send code]⟩ ∧
      ¬ (rd f 0 = 0xC9 ∧ rd f 8 = 0xCE ∧ rd f 1 = 0x05 ∧ rd f 2 = 0x01 ∧
        rd f 7 = CalculateChecksum f 9)) := by
  unfold DecodePacket SendAck
  simp only [PACKET_SIZE, ERR_START_OF_MESSAGE, ERR_END_OF_MESSAGE, ERR_MESSAGE_LENGTH,
    ERR_COMMAND_CODE, ERR_CHECKSUM, ACK_SUCCESS, Nat.cast_ofNat]
  split_ifs with h0 h8 h1 h2 h7
  · exact Or.inr ⟨0xE1, by simp, rfl, fun h => h0 h.1⟩
  · exact Or.inr ⟨0xE5, by simp, rfl, fun h => h8 h.2.1⟩
  · exact Or.inr ⟨0xE2, by simp, rfl, fun h => h1 h.2.2.1⟩
  · exact Or.inr ⟨0xE3, by simp, rfl, fun h => h2 h.2.2.2.1⟩
  · exact Or.inr ⟨0xE4, by simp, rfl, fun h => h7 h.2.2.2.2⟩
  · exact Or.inl ⟨rfl, not_not.mp h0, not_not.mp h8, not_not.mp h1, not_not.mp h2,
      not_not.mp h7⟩

theorem DecodePacket_accepted {f : List Nat} {p0 w0 : Nat}
    (h : (DecodePacket f p0 w0).ret = 1) :
    DecodePacket f p0 w0 =
      ⟨1, u32 ((rd f 5 <<< 8) ||| rd f 6), u32 ((rd f 3 <<< 8) ||| rd f 4),
        [Event.send 0xA1]⟩ := by
  rcases DecodePacket_cases f p0 w0 with ⟨h1, _⟩ | ⟨code, _, h1, _⟩
  · exact h1
  · rw [h1] at h; exact absurd h (by simp)

theorem DecodePacket_rejected {f : List Nat} {p0 w0 : Nat}
    (h : (DecodePacket f p0 w0).ret ≠ 1) :
    ∃ code, code ∈ [0xE1, 0xE2, 0xE3, 0xE4, 0xE5] ∧
      DecodePacket f p0 w0 = ⟨0, p0, w0, [Event.send code]⟩ := by
  rcases DecodePacket_cases f p0 w0 with ⟨h1, _⟩ | ⟨code, hc, h1, _⟩
  · rw [h1] at h; exact absurd rfl h
  · exact ⟨code, hc, h1⟩

theorem rd_lt {f : List Nat} (hf : IsFrame f) (i : Nat) : rd f i < 256 := by
  unfold rd
  rw [List.getD_eq_getElem?_getD]
  cases h : f[i]? with
  | none => simp
  | some b =>
    obtain ⟨hi, hb⟩ := List.getElem?_eq_some_iff.mp h
    simpa using hf.2 b (hb ▸ List.getElem_mem hi)

theorem field_lt {a b : Nat} (ha : a < 256) (hb : b < 256) :
    u32 ((a <<< 8) ||| b) = a * 256 + b ∧ a * 256 + b ≤ 65535 := by
  rw [shl8_or hb]
  exact ⟨u32_of_lt (by omega), by omega⟩

theorem loopBody_of_accept_new (base : Nat) (s : State) {f : List Nat} (rest : List Nat)
    (hs : s.received_packet.length = PACKET_SIZE) (hf : f.length = PACKET_SIZE)
    {pri pw : Nat} {sent : List Event}
    (hd : DecodePacket f s.pri_value s.pw_value = ⟨1, pri, pw, sent⟩)
    (hne : pri ≠ s.previous_pri ∨ pw ≠ s.previous_pw) :
    loopBody base s (f ++ rest) =
      some ({ s with received_packet := f, pri_value := pri, pw_value := pw,
                     regs := updateRegs base pri pw s.regs,
                     previous_pri := pri, previous_pw := pw },
            rest, sent ++ [Event.sleep 1] ++ updateEvents base pri pw) := by
  unfold loopBody
  rw [ReceiveUartPacket_frame rest hs hf]
  simp only [hd]
  rw [if_pos (by decide), if_pos hne]

theorem loopBody_of_accept_same (base : Nat) (s : State) {f : List Nat} (rest : List Nat)
    (hs : s.received_packet.length = PACKET_SIZE) (hf : f.length = PACKET_SIZE)
    {pri pw : Nat} {sent : List Event}
    (hd : DecodePacket f s.pri_value s.pw_value = ⟨1, pri, pw, sent⟩)
    (hne : ¬ (pri ≠ s.previous_pri ∨ pw ≠ s.previous_pw)) :
    loopBody base s (f ++ rest) =
      some ({ s with received_packet := f, pri_value := pri, pw_value := pw },
            rest, sent ++ [Event.sleep 1]) := by
  unfold loopBody
  rw [ReceiveUartPacket_frame rest hs hf]
  simp only [hd]
  rw [if_pos (by decide), if_neg hne]

theorem loopBody_of_reject (base : Nat) (s : State) {f : List Nat} (rest : List Nat)
    (hs : s.received_packet.length = PACKET_SIZE) (hf : f.length = PACKET_SIZE)
    {sent : List Event}
    (hd : DecodePacket f s.pri_value s.pw_value = ⟨0, s.pri_value, s.pw_value, sent⟩) :
    loopBody base s (f ++ rest) = some ({ s with received_packet := f }, rest, sent) := by
  unfold loopBody
  rw [ReceiveUartPacket_frame rest hs hf]
  simp only [hd]
  rw [if_neg (by decide)]

theorem reg_values {pri pw : Nat} (hpri : pri ≤ 65535) (hpw : pw ≤ 65535) :
    u32 (u32 (pw * 100) + 200) = pw * 100 + 200 ∧
    u32 (pri * 100) = pri * 100 ∧
    u32 (u32 (pw * 100) + 100) = pw * 100 + 100 := by
  rw [u32_of_lt (x := pw * 100) (by omega), u32_of_lt (x := pw * 100 + 200) (by omega),
    u32_of_lt (x := pri * 100) (by omega), u32_of_lt (x := pw * 100 + 100) (by omega)]
  exact ⟨rfl, rfl, rfl⟩

theorem updateEvents_of_le (base : Nat) {pri pw : Nat} (hpri : pri ≤ 65535)
    (hpw : pw ≤ 65535) :
    updateEvents base pri pw =
      [ Event.writeReg base 0x04 (pw * 100 + 200), Event.writeReg base 0x08 100,
        Event.writeReg base 0x0C (pri * 100), Event.writeReg base 0x10 (pw * 100 + 100) ] := by
  obtain ⟨h2, h4, h5⟩ := reg_values hpri hpw
  simp only [updateEvents, h2, h4, h5, REG2_OFFSET, REG3_OFFSET, REG4_OFFSET, REG5_OFFSET]

/-- An accepted frame decodes to 16-bit values, whatever the out-parameters
held before. -/
theorem DecodePacket_accepted_le {f : List Nat} {p0 w0 : Nat} (hf : IsFrame f)
    (h : (DecodePacket f p0 w0).ret = 1) :
    ∃ pri pw, pri ≤ 65535 ∧ pw ≤ 65535 ∧
      ∀ p w, DecodePacket f p w = ⟨1, pri, pw, [Event.send 0xA1]⟩ := by
  have h1 := field_lt (rd_lt hf 5) (rd_lt hf 6)
  have h2 := field_lt (rd_lt hf 3) (rd_lt hf 4)
  refine ⟨rd f 5 * 256 + rd f 6, rd f 3 * 256 + rd f 4, h1.2, h2.2, ?_⟩
  intro p w
  rcases DecodePacket_cases f p0 w0 with ⟨_, hc⟩ | ⟨code, _, h3, _⟩
  · rcases DecodePacket_cases f p w with ⟨h4, _⟩ | ⟨_, _, _, h5⟩
    · rw [h4, h1.1, h2.1]
    · exact absurd hc h5
  · rw [h3] at h; exact absurd h (by simp)

/-- A rejected frame is rejected whatever the out-parameters held before. -/
theorem DecodePacket_rejected_any {f : List Nat} {p0 w0 : Nat}
    (h : (DecodePacket f p0 w0).ret = 0) (p w : Nat) :
    ∃ code, code ∈ [0xE1, 0xE2, 0xE3, 0xE4, 0xE5] ∧
      DecodePacket f p w = ⟨0, p, w, [Event.send code]⟩ := by
  rcases DecodePacket_cases f p0 w0 with ⟨h1, _⟩ | ⟨_, _, _, hc⟩
  · rw [h1] at h; exact absurd h (by simp)
  · rcases DecodePacket_cases f p w with ⟨_, h5⟩ | ⟨code, hm, h4, _⟩
    · exact absurd h5 hc
    · exact ⟨code, hm, h4⟩

/-- The return value of `DecodePacket` is 0 or 1. -/
theorem DecodePacket_ret (f : List Nat) (p0 w0 : Nat) :
    (DecodePacket f p0 w0).ret = 1 ∨ (DecodePacket f p0 w0).ret = 0 := by
  rcases DecodePacket_cases f p0 w0 with ⟨h1, _⟩ | ⟨_, _, h1, _⟩ <;> rw [h1] <;> simp

theorem mainLoop_succ (base n : Nat) (s : State) (rx : List Nat) {s1 : State}
    {rx1 : List Nat} {ev : List Event} (h : loopBody base s rx = some (s1, rx1, ev)) :
    mainLoop base (n + 1) s rx =
      ((mainLoop base n s1 rx1).1, (mainLoop base n s1 rx1).2.1,
        ev ++ (mainLoop base n s1 rx1).2.2) := by
  simp only [mainLoop, h]

theorem mainLoop_zero (base : Nat) (s : State) (rx : List Nat) :
    mainLoop base 0 s rx = (s, rx, []) := rfl

theorem main_success (base : Nat) (s0 : State) (rx : List Nat) (n : Nat) :
    main base XST_SUCCESS s0 rx n =
      ⟨none,
        (mainLoop base n { s0 with previous_pri := u32OfInt (-1), previous_pw := u32OfInt (-1),
                                   regs := coldStartRegs base s0.regs } rx).1,
        (mainLoop base n { s0 with previous_pri := u32OfInt (-1), previous_pw := u32OfInt (-1),
                                   regs := coldStartRegs base s0.regs } rx).2.1,
        coldStartEvents base ++
          (mainLoop base n { s0 with previous_pri := u32OfInt (-1), previous_pw := u32OfInt (-1),
                                     regs := coldStartRegs base s0.regs } rx).2.2⟩ := by
  unfold main
  rw [if_neg (by simp)]

/-- Rejected frames at the head of the line cost one loop pass each, and leave
the cached pair and the registers as they were. -/
theorem mainLoop_rejected (base : Nat) (rest : List Nat) (n : Nat) :
    ∀ (fs : List (List Nat)) (s : State), s.received_packet.length = PACKET_SIZE →
      (∀ g ∈ fs, IsFrame g ∧ (DecodePacket g 0 0).ret = 0) →
      ∃ s1 ev, mainLoop base (fs.length + n) s (fs.flatten ++ rest) =
          ((mainLoop base n s1 rest).1, (mainLoop base n s1 rest).2.1,
            ev ++ (mainLoop base n s1 rest).2.2) ∧
        s1.received_packet.length = PACKET_SIZE ∧
        s1.previous_pri = s.previous_pri ∧ s1.previous_pw = s.previous_pw ∧
        s1.regs = s.regs ∧ regWrites ev = [] ∧ sleepsOf ev = [] ∧
        (acksOf ev).length = fs.length := by
  intro fs
  induction fs with
  | nil =>
    intro s hs _
    exact ⟨s, [], by simp, hs, rfl, rfl, rfl, rfl, rfl, rfl⟩
  | cons g fs ih =>
    intro s hs hfs
    obtain ⟨hg, hr⟩ := hfs g (List.mem_cons_self g fs)
    obtain ⟨code, -, hd⟩ := DecodePacket_rejected_any hr s.pri_value s.pw_value
    have hl := loopBody_of_reject base s (fs.flatten ++ rest) hs hg.1 hd
    obtain ⟨s1, ev, hm, h1, h2, h3, h4, h5, h6, h7⟩ :=
      ih { s with received_packet := g } hg.1
        (fun x hx => hfs x (List.mem_cons_of_mem g hx))
    refine ⟨s1, Event.send code :: ev, ?_, h1, h2, h3, h4, ?_, ?_, ?_⟩
    · have e1 : (g :: fs).length + n = (fs.length + n) + 1 := by
        simp only [List.length_cons]; omega
      have e2 : (g :: fs).flatten ++ rest = g ++ (fs.flatten ++ rest) := by
        simp
      rw [e1, e2, mainLoop_succ base _ s _ hl, hm]
      rfl
    · simpa [regWrites] using h5
    · simpa [sleepsOf] using h6
    · simpa [acksOf] using h7

theorem coldStartEvents_eq (base : Nat) :
    coldStartEvents base =
      [ Event.writeReg base 0x04 400, Event.writeReg base 0x08 100,
        Event.writeReg base 0x0C 50000, Event.writeReg base 0x10 300 ] := by
  simp [coldStartEvents, u32, REG2_OFFSET, REG3_OFFSET, REG4_OFFSET, REG5_OFFSET]

theorem goodFrame_decodes (p w : Nat) :
    DecodePacket goodFrame p w = ⟨1, 1000, 2, [Event.send 0xA1]⟩ := by
  rcases DecodePacket_cases goodFrame p w with ⟨h, _⟩ | ⟨_, _, _, h⟩
  · rw [h]; decide
  · exact absurd (by decide) h

/-- The shape of every loop pass over one frame: a rejected frame gives the one
error byte; an accepted frame gives 0xA1, `sleep(1)`, and then either nothing
or the four register writes. -/
theorem loopBody_shape (base : Nat) (s : State) {f : List Nat} (rest : List Nat)
    (hs : s.received_packet.length = PACKET_SIZE) (hf : IsFrame f) :
    ∃ s1 ev, loopBody base s (f ++ rest) = some (s1, rest, ev) ∧
      (((DecodePacket f s.pri_value s.pw_value).ret = 0 ∧
          ∃ code, code ∈ [0xE1, 0xE2, 0xE3, 0xE4, 0xE5] ∧ ev = [Event.send code]) ∨
       ((DecodePacket f s.pri_value s.pw_value).ret = 1 ∧
          (ev = [Event.send 0xA1, Event.sleep 1] ∨
           ∃ pri pw, ev = [Event.send 0xA1, Event.sleep 1] ++ updateEvents base pri pw))) := by
  rcases DecodePacket_ret f s.pri_value s.pw_value with h | h
  · obtain ⟨pri, pw, -, -, hd⟩ := DecodePacket_accepted_le hf h
    have hd1 := hd s.pri_value s.pw_value
    by_cases hne : pri ≠ s.previous_pri ∨ pw ≠ s.previous_pw
    · exact ⟨_, _, loopBody_of_accept_new base s rest hs hf.1 hd1 hne,
        Or.inr ⟨h, Or.inr ⟨pri, pw, rfl⟩⟩⟩
    · exact ⟨_, _, loopBody_of_accept_same base s rest hs hf.1 hd1 hne,
        Or.inr ⟨h, Or.inl rfl⟩⟩
  · obtain ⟨code, hc, hd⟩ := DecodePacket_rejected_any h s.pri_value s.pw_value
    exact ⟨_, _, loopBody_of_reject base s rest hs hf.1 hd, Or.inl ⟨h, code, hc, rfl⟩⟩

theorem readRegs_coldStartRegs (base : Nat) (regs : Nat → Nat) :
    readRegs base (coldStartRegs base regs) = (400, 100, 50000, 300) := by
  simp [readRegs, coldStartRegs, XGpio_WriteReg, REG2_OFFSET, REG3_OFFSET, REG4_OFFSET,
    REG5_OFFSET, u32]

theorem readRegs_updateRegs (base : Nat) (regs : Nat → Nat) {pri pw : Nat}
    (hpri : pri ≤ 65535) (hpw : pw ≤ 65535) :
    readRegs base (updateRegs base pri pw regs) =
      (pw * 100 + 200, 100, pri * 100, pw * 100 + 100) := by
  obtain ⟨h2, h4, h5⟩ := reg_values hpri hpw
  have e2 : u32 (pw * 100 + 200) = pw * 100 + 200 := u32_of_lt (by omega)
  have e4 : u32 (pri * 100) = pri * 100 := u32_of_lt (by omega)
  have e5 : u32 (pw * 100 + 100) = pw * 100 + 100 := u32_of_lt (by omega)
  have e3 : u32 100 = 100 := by decide
  simp [readRegs, updateRegs, XGpio_WriteReg, h2, h4, h5, e2, e3, e4, e5, REG2_OFFSET,
    REG3_OFFSET, REG4_OFFSET, REG5_OFFSET]

theorem Tracks_loopBody (base : Nat) (s : State) (o : Option (Nat × Nat)) {g : List Nat}
    (rest : List Nat) (ht : Tracks base s o) (hg : IsFrame g) :
    ∃ s1 ev, loopBody base s (g ++ rest) = some (s1, rest, ev) ∧
      Tracks base s1 (lastAcceptedFrom o [g]) := by
  obtain ⟨hs, hr, hc⟩ := ht
  rcases DecodePacket_ret g s.pri_value s.pw_value with h | h
  · obtain ⟨pri, pw, hp, hw, hd⟩ := DecodePacket_accepted_le hg h
    have hd1 := hd s.pri_value s.pw_value
    have hlast : lastAcceptedFrom o [g] = some (pri, pw) := by
      simp [lastAcceptedFrom, hd 0 0]
    rw [hlast]
    by_cases hne : pri ≠ s.previous_pri ∨ pw ≠ s.previous_pw
    · exact ⟨_, _, loopBody_of_accept_new base s rest hs hg.1 hd1 hne, hg.1,
        readRegs_updateRegs base s.regs hp hw, rfl, rfl⟩
    · have he : pri = s.previous_pri ∧ pw = s.previous_pw := by
        constructor
        · by_contra hx; exact hne (Or.inl hx)
        · by_contra hx; exact hne (Or.inr hx)
      refine ⟨_, _, loopBody_of_accept_same base s rest hs hg.1 hd1 hne, hg.1, ?_,
        he.1.symm, he.2.symm⟩
      cases o with
      | none =>
        have : 65535 < s.previous_pri := hc
        omega
      | some pq =>
        obtain ⟨p, q⟩ := pq
        have hc1 : s.previous_pri = p ∧ s.previous_pw = q := hc
        have e1 : p = pri := by rw [← hc1.1, he.1]
        have e2 : q = pw := by rw [← hc1.2, he.2]
        subst e1 e2
        exact hr
  · obtain ⟨code, -, hd⟩ := DecodePacket_rejected_any h s.pri_value s.pw_value
    obtain ⟨_, -, hd0⟩ := DecodePacket_rejected_any h 0 0
    have hlast : lastAcceptedFrom o [g] = o := by
      simp [lastAcceptedFrom, hd0]
    rw [hlast]
    exact ⟨_, _, loopBody_of_reject base s rest hs hg.1 hd, hg.1, hr, hc⟩

theorem lastAcceptedFrom_cons (o : Option (Nat × Nat)) (g : List Nat)
    (fs : List (List Nat)) :
    lastAcceptedFrom o (g :: fs) = lastAcceptedFrom (lastAcceptedFrom o [g]) fs := by
  simp only [lastAcceptedFrom]
  split_ifs <;> rfl

theorem Tracks_mainLoop (base : Nat) (rest : List Nat) :
    ∀ (fs : List (List Nat)) (s : State) (o : Option (Nat × Nat)), Tracks base s o →
      (∀ g ∈ fs, IsFrame g) →
      (mainLoop base fs.length s (fs.flatten ++ rest)).2.1 = rest ∧
      Tracks base (mainLoop base fs.length s (fs.flatten ++ rest)).1
        (lastAcceptedFrom o fs) := by
  intro fs
  induction fs with
  | nil =>
    intro s o ht _
    exact ⟨by simp [mainLoop_zero], by simpa [mainLoop_zero, lastAcceptedFrom] using ht⟩
  | cons g fs ih =>
    intro s o ht hfs
    obtain ⟨s1, ev, hl, ht1⟩ :=
      Tracks_loopBody base s o (fs.flatten ++ rest) ht (hfs g (List.mem_cons_self g fs))
    have e2 : (g :: fs).flatten ++ rest = g ++ (fs.flatten ++ rest) := by simp
    rw [List.length_cons, e2, mainLoop_succ base _ s _ hl, lastAcceptedFrom_cons]
    exact ih s1 _ ht1 (fun x hx => hfs x (List.mem_cons_of_mem g hx))

/-- `DecodePacket` on a buffer given cell by cell. -/
theorem DecodePacket_bytes {b0 b1 b2 b3 b4 b5 b6 b7 b8 : Nat}
    (h2 : b2 < 256) (h3 : b3 < 256) (h4 : b4 < 256) (h5 : b5 < 256) (h6 : b6 < 256)
    (p w : Nat) :
    DecodePacket [b0, b1, b2, b3, b4, b5, b6, b7, b8] p w =
      if b0 ≠ 0xC9 then ⟨0, p, w, [Event.send 0xE1]⟩
      else if b8 ≠ 0xCE then ⟨0, p, w, [Event.send 0xE5]⟩
      else if b1 ≠ 0x05 then ⟨0, p, w, [Event.send 0xE2]⟩
      else if b2 ≠ 0x01 then ⟨0, p, w, [Event.send 0xE3]⟩
      else if b7 ≠ b2 ^^^ b3 ^^^ b4 ^^^ b5 ^^^ b6 then ⟨0, p, w, [Event.send 0xE4]⟩
      else ⟨1, b5 * 256 + b6, b3 * 256 + b4, [Event.send 0xA1]⟩ := by
  have hc := @CalculateChecksum_bytes b0 b1 b2 b3 b4 b5 b6 b7 b8 h2 h3 h4 h5 h6
  have h56 := (field_lt h5 h6).1
  have h34 := (field_lt h3 h4).1
  have r0 : rd [b0, b1, b2, b3, b4, b5, b6, b7, b8] 0 = b0 := rfl
  have r1 : rd [b0, b1, b2, b3, b4, b5, b6, b7, b8] 1 = b1 := rfl
  have r2 : rd [b0, b1, b2, b3, b4, b5, b6, b7, b8] 2 = b2 := rfl
  have r3 : rd [b0, b1, b2, b3, b4, b5, b6, b7, b8] 3 = b3 := rfl
  have r4 : rd [b0, b1, b2, b3, b4, b5, b6, b7, b8] 4 = b4 := rfl
  have r5 : rd [b0, b1, b2, b3, b4, b5, b6, b7, b8] 5 = b5 := rfl
  have r6 : rd [b0, b1, b2, b3, b4, b5, b6, b7, b8] 6 = b6 := rfl
  have r7 : rd [b0, b1, b2, b3, b4, b5, b6, b7, b8] 7 = b7 := rfl
  have r8 : rd [b0, b1, b2, b3, b4, b5, b6, b7, b8] 8 = b8 := rfl
  unfold DecodePacket SendAck
  simp only [PACKET_SIZE, ERR_START_OF_MESSAGE, ERR_END_OF_MESSAGE, ERR_MESSAGE_LENGTH,
    ERR_COMMAND_CODE, ERR_CHECKSUM, ACK_SUCCESS, Nat.cast_ofNat, r0, r1, r2, r3, r4, r5, r6,
    r7, r8, hc, h56, h34]

/-- The cells of a well-formed buffer are bytes. -/
theorem IsFrame_bytes {b0 b1 b2 b3 b4 b5 b6 b7 b8 : Nat}
    (hf : IsFrame [b0, b1, b2, b3, b4, b5, b6, b7, b8]) :
    b0 < 256 ∧ b1 < 256 ∧ b2 < 256 ∧ b3 < 256 ∧ b4 < 256 ∧ b5 < 256 ∧ b6 < 256 ∧
      b7 < 256 ∧ b8 < 256 := by
  have hb : ∀ x ∈ [b0, b1, b2, b3, b4, b5, b6, b7, b8], x < 256 := hf.2
  simpa only [List.mem_cons, List.mem_singleton, List.not_mem_nil, or_false,
    forall_eq_or_imp, forall_eq] using hb

theorem IsFrame_of_bytes {b0 b1 b2 b3 b4 b5 b6 b7 b8 : Nat}
    (h : b0 < 256 ∧ b1 < 256 ∧ b2 < 256 ∧ b3 < 256 ∧ b4 < 256 ∧ b5 < 256 ∧ b6 < 256 ∧
      b7 < 256 ∧ b8 < 256) :
    IsFrame [b0, b1, b2, b3, b4, b5, b6, b7, b8] := by
  refine ⟨rfl, ?_⟩
  simpa only [List.mem_cons, List.mem_singleton, List.not_mem_nil, or_false,
    forall_eq_or_imp, forall_eq] using h

/-- What acceptance says about the cells of a frame. -/
theorem accepted_bytes {b0 b1 b2 b3 b4 b5 b6 b7 b8 p w : Nat}
    (hf : IsFrame [b0, b1, b2, b3, b4, b5, b6, b7, b8])
    (h : (DecodePacket [b0, b1, b2, b3, b4, b5, b6, b7, b8] p w).ret = 1) :
    b0 = 0xC9 ∧ b8 = 0xCE ∧ b1 = 0x05 ∧ b2 = 0x01 ∧ b7 = b2 ^^^ b3 ^^^ b4 ^^^ b5 ^^^ b6 := by
  obtain ⟨-, -, h2, h3, h4, h5, h6, -, -⟩ := IsFrame_bytes hf
  rw [DecodePacket_bytes h2 h3 h4 h5 h6] at h
  split_ifs at h with c0 c8 c1 c2 c7
  · simp at h
  · simp at h
  · simp at h
  · simp at h
  · simp at h
  · exact ⟨not_not.mp c0, not_not.mp c8, not_not.mp c1, not_not.mp c2, not_not.mp c7⟩

/-! ## The claims -/

/-- C1: for every 9-byte frame the one byte that `DecodePacket` sends is fixed
by the first failing check in the order SOM, EOM, LEN, CMD, CHK, and is 0xA1
when no check fails; so bad SOM with bad EOM gives 0xE1, and bad EOM with bad
LEN (SOM good) gives 0xE5. -/
theorem DecodePacket_first_failing_check (f : List Nat) (pri pw : Nat) (hf : IsFrame f) :
    (DecodePacket f pri pw).sent =
        [Event.send
          (if rd f 0 ≠ 0xC9 then 0xE1
           else if rd f 8 ≠ 0xCE then 0xE5
           else if rd f 1 ≠ 0x05 then 0xE2
           else if rd f 2 ≠ 0x01 then 0xE3
           else if rd f 7 ≠ CalculateChecksum f 9 then 0xE4
           else 0xA1)]
      ∧ (rd f 0 ≠ 0xC9 → rd f 8 ≠ 0xCE →
          (DecodePacket f pri pw).sent = [Event.send 0xE1])
      ∧ (rd f 0 = 0xC9 → rd f 8 ≠ 0xCE → rd f 1 ≠ 0x05 →
          (DecodePacket f pri pw).sent = [Event.send 0xE5]) := by
  have _ := hf
  refine ⟨?_, ?_, ?_⟩
  · unfold DecodePacket SendAck
    simp only [PACKET_SIZE, ERR_START_OF_MESSAGE, ERR_END_OF_MESSAGE, ERR_MESSAGE_LENGTH,
      ERR_COMMAND_CODE, ERR_CHECKSUM, ACK_SUCCESS, Nat.cast_ofNat]
    split_ifs <;> rfl
  · intro h0 _
    simp [DecodePacket, SendAck, h0, ERR_START_OF_MESSAGE]
  · intro h0 h8 _
    simp [DecodePacket, SendAck, h0, h8, ERR_END_OF_MESSAGE]

theorem DecodePacket_first_failing_check_witness :
    IsFrame [0x00, 0x04, 0x01, 0x00, 0x02, 0x03, 0xE8, 0xE8, 0x00] ∧
    (DecodePacket [0x00, 0x04, 0x01, 0x00, 0x02, 0x03, 0xE8, 0xE8, 0x00] 0 0).sent
      = [Event.send 0xE1] :=
  ⟨by decide,
   (DecodePacket_first_failing_check [0x00, 0x04, 0x01, 0x00, 0x02, 0x03, 0xE8, 0xE8, 0x00]
      0 0 (by decide)).2.1 (by decide) (by decide)⟩

/-- C2, as stated, fails: the frame that the round-trip property describes for
`pri = 1000`, `pw = 2`, with the checksum over CMD, PW_HI, PW_LO, PRI_HI only,
is rejected with the checksum error code. -/
theorem specFrame_rejected :
    1000 ≤ 65535 ∧ 2 ≤ 65535 ∧
    specFrame 1000 2 = [0xC9, 0x05, 0x01, 0x00, 0x02, 0x03, 0xE8, 0x00, 0xCE] ∧
    (DecodePacket (specFrame 1000 2) 0 0).ret = 0 ∧
    (DecodePacket (specFrame 1000 2) 0 0).sent = [Event.send 0xE4] := by
  decide

/-- C2, amended: for `pri` and `pw` in 0..65535 the frame whose checksum byte
is CMD xor PW_HI xor PW_LO xor PRI_HI xor PRI_LO is a well-formed frame,
`DecodePacket` returns 1 on it, sends 0xA1 and yields exactly `(pri, pw)`. -/
theorem DecodePacket_encodeFrame (pri pw p0 w0 : Nat) (hpri : pri ≤ 65535)
    (hpw : pw ≤ 65535) :
    IsFrame (encodeFrame pri pw) ∧
    DecodePacket (encodeFrame pri pw) p0 w0 = ⟨1, pri, pw, [Event.send 0xA1]⟩ := by
  obtain ⟨h3, h4, hw⟩ := hi_lo pw hpw
  obtain ⟨h5, h6, hp⟩ := hi_lo pri hpri
  have h7 : 0x01 ^^^ (pw >>> 8) ^^^ (pw &&& 0xFF) ^^^ (pri >>> 8) ^^^ (pri &&& 0xFF) < 256 :=
    xor_byte (xor_byte (xor_byte (xor_byte (by norm_num) h3) h4) h5) h6
  have hf : IsFrame (encodeFrame pri pw) := by
    refine ⟨rfl, ?_⟩
    intro b hb
    simp only [encodeFrame, List.mem_cons, List.mem_singleton, List.not_mem_nil, or_false] at hb
    rcases hb with rfl | rfl | rfl | rfl | rfl | rfl | rfl | rfl | rfl <;>
      first | assumption | norm_num
  refine ⟨hf, ?_⟩
  rcases DecodePacket_cases (encodeFrame pri pw) p0 w0 with ⟨h, _⟩ | ⟨code, _, _, h⟩
  · rw [h]
    have e1 : rd (encodeFrame pri pw) 5 = pri >>> 8 := rfl
    have e2 : rd (encodeFrame pri pw) 6 = pri &&& 0xFF := rfl
    have e3 : rd (encodeFrame pri pw) 3 = pw >>> 8 := rfl
    have e4 : rd (encodeFrame pri pw) 4 = pw &&& 0xFF := rfl
    rw [e1, e2, e3, e4, hp, hw, u32_of_lt (by omega), u32_of_lt (by omega)]
  · exfalso
    apply h
    refine ⟨rfl, rfl, rfl, rfl, ?_⟩
    unfold encodeFrame
    rw [CalculateChecksum_bytes (by norm_num) h3 h4 h5 h6]
    rfl

theorem DecodePacket_encodeFrame_witness :
    1000 ≤ 65535 ∧ 2 ≤ 65535 ∧
    encodeFrame 1000 2 = [0xC9, 0x05, 0x01, 0x00, 0x02, 0x03, 0xE8, 0xE8, 0xCE] ∧
    DecodePacket (encodeFrame 1000 2) 0 0 = ⟨1, 1000, 2, [Event.send 0xA1]⟩ :=
  ⟨by decide, by decide, by decide,
    (DecodePacket_encodeFrame 1000 2 0 0 (by decide) (by decide)).2⟩

/-- C3, as stated, fails: on an accepted frame the checksum differs from the
XOR of the bytes at indices 2 to 5, and it changes when only the byte at
index 6 changes. -/
theorem CalculateChecksum_not_four_bytes :
    IsFrame goodFrame ∧
    CalculateChecksum goodFrame 9 ≠
      rd goodFrame 2 ^^^ rd goodFrame 3 ^^^ rd goodFrame 4 ^^^ rd goodFrame 5 ∧
    IsFrame (goodFrame.set 6 0) ∧
    CalculateChecksum (goodFrame.set 6 0) 9 ≠ CalculateChecksum goodFrame 9 := by
  decide

/-- C3, amended: for every 9-byte frame `CalculateChecksum(frame, 9)` is the
XOR of the five bytes at indices 2, 3, 4, 5 and 6; the byte at index 6 is
included, so the result changes whenever only `frame[6]` changes. -/
theorem CalculateChecksum_five_bytes (f : List Nat) (hf : IsFrame f) :
    CalculateChecksum f 9 = rd f 2 ^^^ rd f 3 ^^^ rd f 4 ^^^ rd f 5 ^^^ rd f 6 ∧
    ∀ b, b < 256 → b ≠ rd f 6 →
      CalculateChecksum (f.set 6 b) 9 ≠ CalculateChecksum f 9 := by
  obtain ⟨b0, b1, b2, b3, b4, b5, b6, b7, b8, rfl⟩ := length_nine hf.1
  have hb : ∀ x ∈ [b0, b1, b2, b3, b4, b5, b6, b7, b8], x < 256 := hf.2
  simp only [List.mem_cons, List.mem_singleton, List.not_mem_nil, or_false,
    forall_eq_or_imp, forall_eq] at hb
  obtain ⟨-, -, h2, h3, h4, h5, h6, -, -⟩ := hb
  refine ⟨CalculateChecksum_bytes h2 h3 h4 h5 h6, ?_⟩
  intro b hb hne
  have e : [b0, b1, b2, b3, b4, b5, b6, b7, b8].set 6 b = [b0, b1, b2, b3, b4, b5, b, b7, b8] :=
    rfl
  rw [e, CalculateChecksum_bytes h2 h3 h4 h5 h6, CalculateChecksum_bytes h2 h3 h4 h5 hb]
  intro h
  exact hne (Nat.xor_right_injective h)

theorem CalculateChecksum_five_bytes_witness :
    IsFrame goodFrame ∧ CalculateChecksum goodFrame 9 = 0x01 ^^^ 0x00 ^^^ 0x02 ^^^ 0x03 ^^^ 0xE8 :=
  ⟨by decide, (CalculateChecksum_five_bytes goodFrame (by decide)).1⟩

/-- C4: an accepted frame yields `pri = frame[5] * 256 + frame[6]` and
`pw = frame[3] * 256 + frame[4]`, both 16-bit values. -/
theorem DecodePacket_extracts (f : List Nat) (p0 w0 : Nat) (hf : IsFrame f)
    (hacc : (DecodePacket f p0 w0).ret = 1) :
    (DecodePacket f p0 w0).pri = rd f 5 * 256 + rd f 6 ∧
    (DecodePacket f p0 w0).pw = rd f 3 * 256 + rd f 4 ∧
    (DecodePacket f p0 w0).pri ≤ 65535 ∧ (DecodePacket f p0 w0).pw ≤ 65535 := by
  rw [DecodePacket_accepted hacc]
  have h1 := field_lt (rd_lt hf 5) (rd_lt hf 6)
  have h2 := field_lt (rd_lt hf 3) (rd_lt hf 4)
  simp only [h1.1, h2.1]
  exact ⟨trivial, trivial, h1.2, h2.2⟩

theorem DecodePacket_extracts_witness :
    IsFrame goodFrame ∧ (DecodePacket goodFrame 0 0).ret = 1 ∧
    (DecodePacket goodFrame 0 0).pri = 0x03 * 256 + 0xE8 ∧
    (DecodePacket goodFrame 0 0).pw = 0x00 * 256 + 0x02 :=
  ⟨by decide, by decide,
    (DecodePacket_extracts goodFrame 0 0 (by decide) (by decide)).1,
    (DecodePacket_extracts goodFrame 0 0 (by decide) (by decide)).2.1⟩

/-- C5: when an accepted frame decodes to a pair `(pri, pw)` that differs from
the cached pair, the loop pass sends 0xA1, sleeps, and issues exactly the four
writes REG2 <- pw*100 + 200, REG3 <- 100, REG4 <- pri*100, REG5 <- pw*100 + 100
in this order; afterwards the cached pair is `(pri, pw)`. -/
theorem loopBody_programs (base : Nat) (s : State) (f rest : List Nat) (pri pw : Nat)
    (hs : s.received_packet.length = PACKET_SIZE) (hf : IsFrame f)
    (hacc : (DecodePacket f s.pri_value s.pw_value).ret = 1)
    (hpri : (DecodePacket f s.pri_value s.pw_value).pri = pri)
    (hpw : (DecodePacket f s.pri_value s.pw_value).pw = pw)
    (hne : pri ≠ s.previous_pri ∨ pw ≠ s.previous_pw) :
    ∃ s1 ev, loopBody base s (f ++ rest) = some (s1, rest, ev) ∧
      ev = [ Event.send 0xA1, Event.sleep 1,
             Event.writeReg base 0x04 (pw * 100 + 200), Event.writeReg base 0x08 100,
             Event.writeReg base 0x0C (pri * 100), Event.writeReg base 0x10 (pw * 100 + 100) ] ∧
      regWrites ev =
        [(0x04, pw * 100 + 200), (0x08, 100), (0x0C, pri * 100), (0x10, pw * 100 + 100)] ∧
      s1.previous_pri = pri ∧ s1.previous_pw = pw := by
  obtain ⟨pri1, pw1, hp, hw, hd⟩ := DecodePacket_accepted_le hf hacc
  have hd1 := hd s.pri_value s.pw_value
  rw [hd1] at hpri hpw
  simp only at hpri hpw
  subst hpri hpw
  refine ⟨_, _, loopBody_of_accept_new base s rest hs hf.1 hd1 hne, ?_, ?_, rfl, rfl⟩
  · rw [updateEvents_of_le base hp hw]; rfl
  · rw [updateEvents_of_le base hp hw]; rfl

theorem loopBody_programs_witness :
    IsFrame goodFrame ∧
    (DecodePacket goodFrame idleState.pri_value idleState.pw_value).ret = 1 ∧
    (1000 ≠ idleState.previous_pri ∨ 2 ≠ idleState.previous_pw) ∧
    ∃ s1 ev, loopBody 0x44A00000 idleState (goodFrame ++ []) = some (s1, [], ev) ∧
      ev = [ Event.send 0xA1, Event.sleep 1,
             Event.writeReg 0x44A00000 0x04 (2 * 100 + 200), Event.writeReg 0x44A00000 0x08 100,
             Event.writeReg 0x44A00000 0x0C (1000 * 100),
             Event.writeReg 0x44A00000 0x10 (2 * 100 + 100) ] ∧
      regWrites ev =
        [(0x04, 2 * 100 + 200), (0x08, 100), (0x0C, 1000 * 100), (0x10, 2 * 100 + 100)] ∧
      s1.previous_pri = 1000 ∧ s1.previous_pw = 2 :=
  ⟨by decide, by decide, by decide,
    loopBody_programs 0x44A00000 idleState goodFrame [] 1000 2 (by decide) (by decide)
      (by decide) (by decide) (by decide) (by decide)⟩

/-- C6: a loop pass over any 9-byte frame emits exactly one acknowledgment
byte; it is 0xA1 exactly when `DecodePacket` returns 1 and one of 0xE1, 0xE2,
0xE3, 0xE4, 0xE5 exactly when it returns 0. -/
theorem loopBody_one_ack (base : Nat) (s : State) (f rest : List Nat)
    (hs : s.received_packet.length = PACKET_SIZE) (hf : IsFrame f) :
    ∃ s1 ev b, loopBody base s (f ++ rest) = some (s1, rest, ev) ∧
      acksOf ev = [b] ∧
      (b = 0xA1 ↔ (DecodePacket f s.pri_value s.pw_value).ret = 1) ∧
      (b ∈ [0xE1, 0xE2, 0xE3, 0xE4, 0xE5] ↔
        (DecodePacket f s.pri_value s.pw_value).ret = 0) := by
  rcases DecodePacket_ret f s.pri_value s.pw_value with h | h
  · obtain ⟨pri, pw, -, -, hd⟩ := DecodePacket_accepted_le hf h
    have hd1 := hd s.pri_value s.pw_value
    by_cases hne : pri ≠ s.previous_pri ∨ pw ≠ s.previous_pw
    · refine ⟨_, _, 0xA1, loopBody_of_accept_new base s rest hs hf.1 hd1 hne, rfl, ?_, ?_⟩
      · simp [h]
      · simp [h]
    · refine ⟨_, _, 0xA1, loopBody_of_accept_same base s rest hs hf.1 hd1 hne, rfl, ?_, ?_⟩
      · simp [h]
      · simp [h]
  · obtain ⟨code, hc, hd⟩ := DecodePacket_rejected_any h s.pri_value s.pw_value
    refine ⟨_, _, code, loopBody_of_reject base s rest hs hf.1 hd, rfl, ?_, ?_⟩
    · simp only [h]
      simp only [List.mem_cons, List.mem_singleton, List.not_mem_nil, or_false] at hc
      rcases hc with rfl | rfl | rfl | rfl | rfl <;> simp
    · simp [h, hc]

theorem loopBody_one_ack_witness :
    IsFrame badFrame ∧
    ∃ s1 ev b, loopBody 0x44A00000 idleState (badFrame ++ []) = some (s1, [], ev) ∧
      acksOf ev = [b] ∧
      (b = 0xA1 ↔ (DecodePacket badFrame idleState.pri_value idleState.pw_value).ret = 1) ∧
      (b ∈ [0xE1, 0xE2, 0xE3, 0xE4, 0xE5] ↔
        (DecodePacket badFrame idleState.pri_value idleState.pw_value).ret = 0) :=
  ⟨by decide, loopBody_one_ack 0x44A00000 idleState badFrame [] (by decide) (by decide)⟩

/-- C7: when an accepted frame is processed twice in a row, both passes send
0xA1, the second pass issues no register write and leaves the cached pair and
the registers unchanged, and over the two passes the four-write sequence is
issued once when the parameters differ from the pair cached before the first
pass and not at all otherwise. -/
theorem loopBody_duplicate (base : Nat) (s : State) (f rest : List Nat) (pri pw : Nat)
    (hs : s.received_packet.length = PACKET_SIZE) (hf : IsFrame f)
    (hacc : (DecodePacket f s.pri_value s.pw_value).ret = 1)
    (hpri : (DecodePacket f s.pri_value s.pw_value).pri = pri)
    (hpw : (DecodePacket f s.pri_value s.pw_value).pw = pw) :
    ∃ s1 ev1 s2 ev2,
      loopBody base s (f ++ (f ++ rest)) = some (s1, f ++ rest, ev1) ∧
      loopBody base s1 (f ++ rest) = some (s2, rest, ev2) ∧
      acksOf ev1 = [0xA1] ∧ acksOf ev2 = [0xA1] ∧
      regWrites ev2 = [] ∧
      s2.previous_pri = s1.previous_pri ∧ s2.previous_pw = s1.previous_pw ∧
      s2.regs = s1.regs ∧
      ((pri ≠ s.previous_pri ∨ pw ≠ s.previous_pw) →
        regWrites (ev1 ++ ev2) =
          [(0x04, pw * 100 + 200), (0x08, 100), (0x0C, pri * 100), (0x10, pw * 100 + 100)]) ∧
      (¬ (pri ≠ s.previous_pri ∨ pw ≠ s.previous_pw) → regWrites (ev1 ++ ev2) = []) := by
  obtain ⟨pri1, pw1, hp, hw, hd⟩ := DecodePacket_accepted_le hf hacc
  have hd1 := hd s.pri_value s.pw_value
  rw [hd1] at hpri hpw
  simp only at hpri hpw
  subst hpri hpw
  by_cases hne : pri1 ≠ s.previous_pri ∨ pw1 ≠ s.previous_pw
  · have h1 := loopBody_of_accept_new base s (f ++ rest) hs hf.1 hd1 hne
    have h2 := loopBody_of_accept_same base
      { s with received_packet := f, pri_value := pri1, pw_value := pw1,
               regs := updateRegs base pri1 pw1 s.regs,
               previous_pri := pri1, previous_pw := pw1 }
      rest hf.1 hf.1 (hd pri1 pw1) (by simp)
    refine ⟨_, _, _, _, h1, h2, rfl, rfl, rfl, rfl, rfl, rfl, ?_, ?_⟩
    · intro _
      rw [updateEvents_of_le base hp hw]; rfl
    · intro h; exact absurd hne h
  · have h1 := loopBody_of_accept_same base s (f ++ rest) hs hf.1 hd1 hne
    have h2 := loopBody_of_accept_same base
      { s with received_packet := f, pri_value := pri1, pw_value := pw1 }
      rest hf.1 hf.1 (hd pri1 pw1) hne
    refine ⟨_, _, _, _, h1, h2, rfl, rfl, rfl, rfl, rfl, rfl, ?_, ?_⟩
    · intro h; exact absurd h hne
    · intro _; rfl

theorem loopBody_duplicate_witness :
    IsFrame goodFrame ∧
    (DecodePacket goodFrame idleState.pri_value idleState.pw_value).ret = 1 ∧
    ∃ s1 ev1 s2 ev2,
      loopBody 0x44A00000 idleState (goodFrame ++ (goodFrame ++ [])) =
        some (s1, goodFrame ++ [], ev1) ∧
      loopBody 0x44A00000 s1 (goodFrame ++ []) = some (s2, [], ev2) ∧
      acksOf ev1 = [0xA1] ∧ acksOf ev2 = [0xA1] ∧
      regWrites ev2 = [] ∧
      s2.previous_pri = s1.previous_pri ∧ s2.previous_pw = s1.previous_pw ∧
      s2.regs = s1.regs ∧
      ((1000 ≠ idleState.previous_pri ∨ 2 ≠ idleState.previous_pw) →
        regWrites (ev1 ++ ev2) =
          [(0x04, 2 * 100 + 200), (0x08, 100), (0x0C, 1000 * 100), (0x10, 2 * 100 + 100)]) ∧
      (¬ (1000 ≠ idleState.previous_pri ∨ 2 ≠ idleState.previous_pw) →
        regWrites (ev1 ++ ev2) = []) :=
  ⟨by decide, by decide,
    loopBody_duplicate 0x44A00000 idleState goodFrame [] 1000 2 (by decide) (by decide)
      (by decide) (by decide) (by decide)⟩

/-- C8: a loop pass over a rejected frame sends one error code and nothing
else: no sleep, no register write, and the cached pair, the decoded values and
the registers stay as they were.  For any frame, a pass that writes a register
had `DecodePacket` return 1 (all five checks passed) with parameters that
differ from the cached pair. -/
theorem loopBody_rejected_frame (base : Nat) (s : State) (f rest : List Nat)
    (hs : s.received_packet.length = PACKET_SIZE) (hf : IsFrame f) :
    ((DecodePacket f s.pri_value s.pw_value).ret = 0 →
      ∃ s1 code, code ∈ [0xE1, 0xE2, 0xE3, 0xE4, 0xE5] ∧
        loopBody base s (f ++ rest) = some (s1, rest, [Event.send code]) ∧
        regWrites [Event.send code] = [] ∧
        s1.previous_pri = s.previous_pri ∧ s1.previous_pw = s.previous_pw ∧
        s1.regs = s.regs ∧ s1.pri_value = s.pri_value ∧ s1.pw_value = s.pw_value ∧
        s1.received_packet = f) ∧
    (∀ s1 rx1 ev, loopBody base s (f ++ rest) = some (s1, rx1, ev) → regWrites ev ≠ [] →
      (DecodePacket f s.pri_value s.pw_value).ret = 1 ∧
      rd f 0 = 0xC9 ∧ rd f 8 = 0xCE ∧ rd f 1 = 0x05 ∧ rd f 2 = 0x01 ∧
      rd f 7 = CalculateChecksum f 9 ∧
      ((DecodePacket f s.pri_value s.pw_value).pri ≠ s.previous_pri ∨
        (DecodePacket f s.pri_value s.pw_value).pw ≠ s.previous_pw)) := by
  constructor
  · intro h
    obtain ⟨code, hc, hd⟩ := DecodePacket_rejected_any h s.pri_value s.pw_value
    exact ⟨_, code, hc, loopBody_of_reject base s rest hs hf.1 hd, rfl, rfl, rfl, rfl, rfl, rfl,
      rfl⟩
  · intro s1 rx1 ev hl hw
    rcases DecodePacket_cases f s.pri_value s.pw_value with ⟨hd, hc⟩ | ⟨code, _, hd, _⟩
    · by_cases hne : u32 ((rd f 5 <<< 8) ||| rd f 6) ≠ s.previous_pri ∨
          u32 ((rd f 3 <<< 8) ||| rd f 4) ≠ s.previous_pw
      · rw [hd]
        exact ⟨rfl, hc.1, hc.2.1, hc.2.2.1, hc.2.2.2.1, hc.2.2.2.2, hne⟩
      · rw [loopBody_of_accept_same base s rest hs hf.1 hd hne] at hl
        simp only [Option.some.injEq, Prod.mk.injEq] at hl
        rw [← hl.2.2] at hw
        exact absurd rfl hw
    · rw [loopBody_of_reject base s rest hs hf.1 hd] at hl
      simp only [Option.some.injEq, Prod.mk.injEq] at hl
      rw [← hl.2.2] at hw
      exact absurd rfl hw

theorem loopBody_rejected_frame_witness :
    IsFrame badFrame ∧
    (DecodePacket badFrame idleState.pri_value idleState.pw_value).ret = 0 ∧
    ∃ s1 code, code ∈ [0xE1, 0xE2, 0xE3, 0xE4, 0xE5] ∧
      loopBody 0x44A00000 idleState (badFrame ++ []) = some (s1, [], [Event.send code]) ∧
      regWrites [Event.send code] = [] ∧
      s1.previous_pri = idleState.previous_pri ∧ s1.previous_pw = idleState.previous_pw ∧
      s1.regs = idleState.regs ∧ s1.pri_value = idleState.pri_value ∧
      s1.pw_value = idleState.pw_value ∧ s1.received_packet = badFrame :=
  ⟨by decide, by decide,
    (loopBody_rejected_frame 0x44A00000 idleState badFrame [] (by decide) (by decide)).1
      (by decide)⟩

/-- C9: for `pri` and `pw` in 0..65535 the three register values computed in
32-bit unsigned arithmetic equal the exact results, so the four writes of the
loop body carry `pw*100 + 200`, `100`, `pri*100` and `pw*100 + 100`. -/
theorem updateEvents_no_wraparound (base pri pw : Nat) (hpri : pri ≤ 65535)
    (hpw : pw ≤ 65535) :
    u32 (u32 (pw * 100) + 200) = pw * 100 + 200 ∧
    u32 (pri * 100) = pri * 100 ∧
    u32 (u32 (pw * 100) + 100) = pw * 100 + 100 ∧
    (pw * 100 + 200) % 2 ^ 32 = pw * 100 + 200 ∧
    (pri * 100) % 2 ^ 32 = pri * 100 ∧
    (pw * 100 + 100) % 2 ^ 32 = pw * 100 + 100 ∧
    updateEvents base pri pw =
      [ Event.writeReg base 0x04 (pw * 100 + 200), Event.writeReg base 0x08 100,
        Event.writeReg base 0x0C (pri * 100), Event.writeReg base 0x10 (pw * 100 + 100) ] := by
  obtain ⟨h2, h4, h5⟩ := reg_values hpri hpw
  exact ⟨h2, h4, h5, Nat.mod_eq_of_lt (by omega), Nat.mod_eq_of_lt (by omega),
    Nat.mod_eq_of_lt (by omega), updateEvents_of_le base hpri hpw⟩

theorem updateEvents_no_wraparound_witness :
    u32 (u32 (65535 * 100) + 200) = 65535 * 100 + 200 ∧
    u32 (65535 * 100) = 65535 * 100 ∧
    u32 (u32 (65535 * 100) + 100) = 65535 * 100 + 100 :=
  ⟨(updateEvents_no_wraparound 0x44A00000 65535 65535 (by decide) (by decide)).1,
   (updateEvents_no_wraparound 0x44A00000 65535 65535 (by decide) (by decide)).2.1,
   (updateEvents_no_wraparound 0x44A00000 65535 65535 (by decide) (by decide)).2.2.1⟩

/-- C10: the cached pair starts as `(0xFFFFFFFF, 0xFFFFFFFF)`, which no decoded
pair equals; so when `main` runs over any number of rejected frames followed
by an accepted frame, the pass over that frame sends 0xA1, sleeps and issues
the four register writes for its parameters, whatever they are. -/
theorem first_accepted_frame_programs (base : Nat) (s0 : State) (fs : List (List Nat))
    (f rest : List Nat) (pri pw : Nat)
    (hs : s0.received_packet.length = PACKET_SIZE)
    (hfs : ∀ g ∈ fs, IsFrame g ∧ (DecodePacket g 0 0).ret = 0)
    (hf : IsFrame f) (hacc : (DecodePacket f 0 0).ret = 1)
    (hpri : (DecodePacket f 0 0).pri = pri) (hpw : (DecodePacket f 0 0).pw = pw) :
    u32OfInt (-1) = 0xFFFFFFFF ∧ pri ≠ u32OfInt (-1) ∧ pw ≠ u32OfInt (-1) ∧
    (main base XST_SUCCESS s0 (fs.flatten ++ (f ++ rest)) (fs.length + 1)).returned = none ∧
    (∃ ev, regWrites ev = [] ∧ sleepsOf ev = [] ∧
      (main base XST_SUCCESS s0 (fs.flatten ++ (f ++ rest)) (fs.length + 1)).trace =
        coldStartEvents base ++ ev ++
          [ Event.send 0xA1, Event.sleep 1,
            Event.writeReg base 0x04 (pw * 100 + 200), Event.writeReg base 0x08 100,
            Event.writeReg base 0x0C (pri * 100),
            Event.writeReg base 0x10 (pw * 100 + 100) ]) ∧
    (main base XST_SUCCESS s0 (fs.flatten ++ (f ++ rest)) (fs.length + 1)).state.previous_pri
      = pri ∧
    (main base XST_SUCCESS s0 (fs.flatten ++ (f ++ rest)) (fs.length + 1)).state.previous_pw
      = pw ∧
    (main base XST_SUCCESS s0 (fs.flatten ++ (f ++ rest)) (fs.length + 1)).rx = rest := by
  obtain ⟨pri1, pw1, hp, hw, hd⟩ := DecodePacket_accepted_le hf hacc
  rw [hd 0 0] at hpri hpw
  simp only at hpri hpw
  subst hpri hpw
  have hsent : u32OfInt (-1) = 0xFFFFFFFF := by decide
  have hp1 : pri1 ≠ u32OfInt (-1) := by rw [hsent]; omega
  have hw1 : pw1 ≠ u32OfInt (-1) := by rw [hsent]; omega
  obtain ⟨s1, ev, hm, h1, h2, h3, -, h5, h6, -⟩ :=
    mainLoop_rejected base (f ++ rest) 1 fs
      { s0 with previous_pri := u32OfInt (-1), previous_pw := u32OfInt (-1),
                regs := coldStartRegs base s0.regs } hs hfs
  have hl := loopBody_of_accept_new base s1 rest h1 hf.1 (hd s1.pri_value s1.pw_value)
    (Or.inl (by rw [h2]; exact hp1))
  have hm1 := mainLoop_succ base 0 s1 (f ++ rest) hl
  simp only [mainLoop_zero, List.append_nil, updateEvents_of_le base hp hw] at hm1
  rw [hm1] at hm
  simp only [main_success, hm]
  exact ⟨hsent, hp1, hw1, trivial, ⟨ev, h5, h6, by simp⟩, trivial, trivial, trivial⟩

theorem first_accepted_frame_programs_witness :
    (∀ g ∈ [badFrame], IsFrame g ∧ (DecodePacket g 0 0).ret = 0) ∧
    IsFrame (encodeFrame 500 2) ∧ (DecodePacket (encodeFrame 500 2) 0 0).ret = 1 ∧
    ∃ ev, regWrites ev = [] ∧ sleepsOf ev = [] ∧
      (main 0x44A00000 XST_SUCCESS idleState
          ([badFrame].flatten ++ (encodeFrame 500 2 ++ [])) ([badFrame].length + 1)).trace =
        coldStartEvents 0x44A00000 ++ ev ++
          [ Event.send 0xA1, Event.sleep 1,
            Event.writeReg 0x44A00000 0x04 (2 * 100 + 200),
            Event.writeReg 0x44A00000 0x08 100,
            Event.writeReg 0x44A00000 0x0C (500 * 100),
            Event.writeReg 0x44A00000 0x10 (2 * 100 + 100) ] :=
  ⟨by decide, by decide, by decide,
    (first_accepted_frame_programs 0x44A00000 idleState [badFrame] (encodeFrame 500 2) []
      500 2 (by decide) (by decide) (by decide) (by decide) (by decide)
      (by decide)).2.2.2.2.1⟩

/-- C11: when `XUartLite_Initialize` succeeds, `main` issues, before it
receives anything, exactly the four writes REG2 <- 400, REG3 <- 100,
REG4 <- 50000, REG5 <- 300 in that order; they are the writes of the loop body
for `pri = 500`, `pw = 2`, and they open the trace of every longer run. -/
theorem main_cold_start (base : Nat) (s0 : State) (rx : List Nat) :
    (main base XST_SUCCESS s0 rx 0).returned = none ∧
    (main base XST_SUCCESS s0 rx 0).rx = rx ∧
    (main base XST_SUCCESS s0 rx 0).trace =
      [ Event.writeReg base 0x04 400, Event.writeReg base 0x08 100,
        Event.writeReg base 0x0C 50000, Event.writeReg base 0x10 300 ] ∧
    regWrites (main base XST_SUCCESS s0 rx 0).trace =
      [(0x04, 400), (0x08, 100), (0x0C, 50000), (0x10, 300)] ∧
    (main base XST_SUCCESS s0 rx 0).trace = updateEvents base 500 2 ∧
    readRegs base (main base XST_SUCCESS s0 rx 0).state.regs = (400, 100, 50000, 300) ∧
    (∀ n, ∃ ev, (main base XST_SUCCESS s0 rx n).trace =
      (main base XST_SUCCESS s0 rx 0).trace ++ ev) := by
  simp only [main_success, mainLoop_zero, List.append_nil, coldStartEvents_eq]
  refine ⟨trivial, trivial, trivial, rfl, ?_, ?_, fun n => ⟨_, rfl⟩⟩
  · simp [updateEvents, u32, REG2_OFFSET, REG3_OFFSET, REG4_OFFSET, REG5_OFFSET]
  · simp [readRegs, coldStartRegs, XGpio_WriteReg, REG2_OFFSET, REG3_OFFSET, REG4_OFFSET,
      REG5_OFFSET, u32]

/-- C12, as stated, fails: from the cold-start state the frame
C9 05 01 00 02 03 E8 EA CE is rejected, because the checksum over bytes 2 to 6
is 0xE8; the acknowledgment is 0xE4 and the pass writes no register. -/
theorem scenarioFrame_rejected :
    IsFrame scenarioFrame ∧
    CalculateChecksum scenarioFrame 9 = 0xE8 ∧
    (DecodePacket scenarioFrame 0 0).ret = 0 ∧
    (main 0x44A00000 XST_SUCCESS idleState scenarioFrame 1).trace =
      coldStartEvents 0x44A00000 ++ [Event.send 0xE4] := by
  decide

/-- C12, amended: from the cold-start state the frame C9 05 01 00 02 03 E8 E8 CE
is accepted with `pw = 2` and `pri = 1000`, the acknowledgment byte is 0xA1,
and the pass writes REG2 = 400, REG3 = 100, REG4 = 100000, REG5 = 300, which
the registers then hold. -/
theorem main_valid_minimal (base : Nat) (s0 : State) (rest : List Nat)
    (hs : s0.received_packet.length = PACKET_SIZE) :
    goodFrame = [0xC9, 0x05, 0x01, 0x00, 0x02, 0x03, 0xE8, 0xE8, 0xCE] ∧
    (DecodePacket goodFrame s0.pri_value s0.pw_value).ret = 1 ∧
    (DecodePacket goodFrame s0.pri_value s0.pw_value).pri = 1000 ∧
    (DecodePacket goodFrame s0.pri_value s0.pw_value).pw = 2 ∧
    (main base XST_SUCCESS s0 (goodFrame ++ rest) 1).trace =
      coldStartEvents base ++
        [ Event.send 0xA1, Event.sleep 1,
          Event.writeReg base 0x04 400, Event.writeReg base 0x08 100,
          Event.writeReg base 0x0C 100000, Event.writeReg base 0x10 300 ] ∧
    (main base XST_SUCCESS s0 (goodFrame ++ rest) 1).rx = rest ∧
    readRegs base (main base XST_SUCCESS s0 (goodFrame ++ rest) 1).state.regs =
      (400, 100, 100000, 300) := by
  have hd := goodFrame_decodes s0.pri_value s0.pw_value
  have hl := loopBody_of_accept_new base
    { s0 with previous_pri := u32OfInt (-1), previous_pw := u32OfInt (-1),
              regs := coldStartRegs base s0.regs }
    rest hs (by decide : goodFrame.length = PACKET_SIZE) hd
    (Or.inl (show (1000 : Nat) ≠ u32OfInt (-1) by decide))
  have hm := mainLoop_succ base 0 _ (goodFrame ++ rest) hl
  simp only [mainLoop_zero, List.append_nil] at hm
  simp only [main_success, hm, hd]
  refine ⟨rfl, trivial, trivial, trivial, ?_, trivial, ?_⟩
  · simp [updateEvents, u32, REG2_OFFSET, REG3_OFFSET, REG4_OFFSET, REG5_OFFSET]
  · simp [readRegs, updateRegs, XGpio_WriteReg, REG2_OFFSET, REG3_OFFSET, REG4_OFFSET,
      REG5_OFFSET, u32]

theorem main_valid_minimal_witness :
    idleState.received_packet.length = PACKET_SIZE ∧
    (main 0x44A00000 XST_SUCCESS idleState (goodFrame ++ []) 1).trace =
      coldStartEvents 0x44A00000 ++
        [ Event.send 0xA1, Event.sleep 1,
          Event.writeReg 0x44A00000 0x04 400, Event.writeReg 0x44A00000 0x08 100,
          Event.writeReg 0x44A00000 0x0C 100000, Event.writeReg 0x44A00000 0x10 300 ] :=
  ⟨by decide, (main_valid_minimal 0x44A00000 idleState [] (by decide)).2.2.2.2.1⟩

/-- C13: in the trace of one loop pass `sleep(1)` occurs exactly when the frame
is accepted; then it is the second event, directly after the 0xA1
acknowledgment, and every register write of the pass comes after it; the pass
over a rejected frame contains no `sleep`. -/
theorem loopBody_sleep (base : Nat) (s : State) (f rest : List Nat)
    (hs : s.received_packet.length = PACKET_SIZE) (hf : IsFrame f) :
    ∃ s1 ev, loopBody base s (f ++ rest) = some (s1, rest, ev) ∧
      (sleepsOf ev = [1] ↔ (DecodePacket f s.pri_value s.pw_value).ret = 1) ∧
      (sleepsOf ev ≠ [] ↔ (DecodePacket f s.pri_value s.pw_value).ret = 1) ∧
      ((DecodePacket f s.pri_value s.pw_value).ret = 1 →
        ∃ ws, ev = [Event.send 0xA1, Event.sleep 1] ++ ws ∧
          acksOf ws = [] ∧ sleepsOf ws = [] ∧ (regWrites ws).length = ws.length) ∧
      ((DecodePacket f s.pri_value s.pw_value).ret = 0 → sleepsOf ev = []) := by
  obtain ⟨s1, ev, hl, hsh⟩ := loopBody_shape base s rest hs hf
  refine ⟨s1, ev, hl, ?_⟩
  rcases hsh with ⟨h0, code, -, rfl⟩ | ⟨h1, rfl | ⟨pri, pw, rfl⟩⟩
  · simp [h0, sleepsOf]
  · simp only [h1]
    exact ⟨by simp [sleepsOf], by simp [sleepsOf], fun _ => ⟨[], rfl, rfl, rfl, rfl⟩,
      fun h => absurd h (by decide)⟩
  · simp only [h1]
    exact ⟨by simp [sleepsOf, updateEvents], by simp [sleepsOf, updateEvents],
      fun _ => ⟨updateEvents base pri pw, rfl, rfl, rfl, rfl⟩, fun h => absurd h (by decide)⟩

theorem loopBody_sleep_witness :
    IsFrame goodFrame ∧
    ∃ s1 ev, loopBody 0x44A00000 idleState (goodFrame ++ []) = some (s1, [], ev) ∧
      (sleepsOf ev = [1] ↔
        (DecodePacket goodFrame idleState.pri_value idleState.pw_value).ret = 1) ∧
      (sleepsOf ev ≠ [] ↔
        (DecodePacket goodFrame idleState.pri_value idleState.pw_value).ret = 1) ∧
      ((DecodePacket goodFrame idleState.pri_value idleState.pw_value).ret = 1 →
        ∃ ws, ev = [Event.send 0xA1, Event.sleep 1] ++ ws ∧
          acksOf ws = [] ∧ sleepsOf ws = [] ∧ (regWrites ws).length = ws.length) ∧
      ((DecodePacket goodFrame idleState.pri_value idleState.pw_value).ret = 0 →
        sleepsOf ev = []) :=
  ⟨by decide, loopBody_sleep 0x44A00000 idleState goodFrame [] (by decide) (by decide)⟩

/-- C14: after the cold-start writes and any finite sequence of 9-byte frames,
one loop pass per frame, the registers REG2 to REG5 hold
`(pw*100 + 200, 100, pri*100, pw*100 + 100)` for the parameters of the most
recently accepted frame of the sequence, and `(400, 100, 50000, 300)` when no
frame of the sequence was accepted. -/
theorem registers_track_last_accepted (base : Nat) (s0 : State) (fs : List (List Nat))
    (rest : List Nat) (hs : s0.received_packet.length = PACKET_SIZE)
    (hfs : ∀ g ∈ fs, IsFrame g) :
    (main base XST_SUCCESS s0 (fs.flatten ++ rest) fs.length).rx = rest ∧
    readRegs base (main base XST_SUCCESS s0 (fs.flatten ++ rest) fs.length).state.regs =
      expectedRegs (lastAccepted fs) ∧
    (lastAccepted fs = none →
      readRegs base (main base XST_SUCCESS s0 (fs.flatten ++ rest) fs.length).state.regs =
        (400, 100, 50000, 300)) ∧
    (∀ pri pw, lastAccepted fs = some (pri, pw) →
      readRegs base (main base XST_SUCCESS s0 (fs.flatten ++ rest) fs.length).state.regs =
        (pw * 100 + 200, 100, pri * 100, pw * 100 + 100)) := by
  have ht : Tracks base
      { s0 with previous_pri := u32OfInt (-1), previous_pw := u32OfInt (-1),
                regs := coldStartRegs base s0.regs } none :=
    ⟨hs, readRegs_coldStartRegs base s0.regs, show 65535 < u32OfInt (-1) by decide⟩
  obtain ⟨h1, -, h2, -⟩ := Tracks_mainLoop base rest fs _ none ht hfs
  simp only [main_success]
  refine ⟨h1, h2, ?_, ?_⟩
  · intro hn
    rw [h2]
    unfold lastAccepted at hn
    rw [hn]; rfl
  · intro pri pw hn
    rw [h2]
    unfold lastAccepted at hn
    rw [hn]; rfl

theorem registers_track_last_accepted_witness :
    (∀ g ∈ [goodFrame, badFrame, goodFrame], IsFrame g) ∧
    lastAccepted [goodFrame, badFrame, goodFrame] = some (1000, 2) ∧
    readRegs 0x44A00000
      (main 0x44A00000 XST_SUCCESS idleState ([goodFrame, badFrame, goodFrame].flatten ++ [])
        [goodFrame, badFrame, goodFrame].length).state.regs =
      (2 * 100 + 200, 100, 1000 * 100, 2 * 100 + 100) :=
  ⟨by decide, by decide,
    (registers_track_last_accepted 0x44A00000 idleState [goodFrame, badFrame, goodFrame] []
      (by decide) (by decide)).2.2.2 1000 2 (by decide)⟩

/-- C15: for `pri` and `pw` in 0..65535, a checksum byte equal to what
`CalculateChecksum` returns on the frame exists, and the frame
[0xC9, 0x05, 0x01, pw >> 8, pw & 0xFF, pri >> 8, pri & 0xFF, CHK, 0xCE] with
such a byte is a well-formed frame that `DecodePacket` accepts with exactly
`(pri, pw)`. -/
theorem DecodePacket_frameWithChk (pri pw p0 w0 : Nat) (hpri : pri ≤ 65535)
    (hpw : pw ≤ 65535) :
    (∃ chk, chk = CalculateChecksum (frameWithChk pri pw chk) 9) ∧
    ∀ chk, chk = CalculateChecksum (frameWithChk pri pw chk) 9 →
      IsFrame (frameWithChk pri pw chk) ∧
      DecodePacket (frameWithChk pri pw chk) p0 w0 = ⟨1, pri, pw, [Event.send 0xA1]⟩ := by
  obtain ⟨h3, h4, hw⟩ := hi_lo pw hpw
  obtain ⟨h5, h6, hp⟩ := hi_lo pri hpri
  have h2 : (0x01 : Nat) < 256 := by norm_num
  have hc : ∀ chk, CalculateChecksum (frameWithChk pri pw chk) 9 =
      0x01 ^^^ (pw >>> 8) ^^^ (pw &&& 0xFF) ^^^ (pri >>> 8) ^^^ (pri &&& 0xFF) :=
    fun chk => CalculateChecksum_bytes h2 h3 h4 h5 h6
  refine ⟨⟨_, (hc _).symm⟩, ?_⟩
  intro chk hchk
  rw [hc chk] at hchk
  have h7 : chk < 256 := by
    rw [hchk]
    exact xor_byte (xor_byte (xor_byte (xor_byte h2 h3) h4) h5) h6
  refine ⟨IsFrame_of_bytes ⟨by norm_num, by norm_num, h2, h3, h4, h5, h6, h7, by norm_num⟩, ?_⟩
  unfold frameWithChk
  rw [DecodePacket_bytes h2 h3 h4 h5 h6, if_neg (by simp), if_neg (by simp), if_neg (by simp),
    if_neg (by simp), if_neg (not_not.mpr hchk)]
  rw [shl8_or h4] at hw
  rw [shl8_or h6] at hp
  rw [hw, hp]

theorem DecodePacket_frameWithChk_witness :
    0xE8 = CalculateChecksum (frameWithChk 1000 2 0xE8) 9 ∧
    DecodePacket (frameWithChk 1000 2 0xE8) 0 0 = ⟨1, 1000, 2, [Event.send 0xA1]⟩ :=
  ⟨by decide,
    ((DecodePacket_frameWithChk 1000 2 0 0 (by decide) (by decide)).2 0xE8 (by decide)).2⟩

/-- C16: two 9-byte frames that `DecodePacket` accepts with the same
`(pri, pw)` are equal byte for byte; every accepted frame yields a pair in
0..65535 x 0..65535, and every such pair is yielded by an accepted frame. -/
theorem DecodePacket_injective :
    (∀ f g p0 w0 p1 w1 : _, IsFrame f → IsFrame g →
      (DecodePacket f p0 w0).ret = 1 → (DecodePacket g p1 w1).ret = 1 →
      (DecodePacket f p0 w0).pri = (DecodePacket g p1 w1).pri →
      (DecodePacket f p0 w0).pw = (DecodePacket g p1 w1).pw → f = g) ∧
    (∀ f p0 w0 : _, IsFrame f → (DecodePacket f p0 w0).ret = 1 →
      (DecodePacket f p0 w0).pri ≤ 65535 ∧ (DecodePacket f p0 w0).pw ≤ 65535) ∧
    (∀ pri pw : Nat, pri ≤ 65535 → pw ≤ 65535 →
      ∃ f, IsFrame f ∧ ∀ p0 w0, DecodePacket f p0 w0 = ⟨1, pri, pw, [Event.send 0xA1]⟩) := by
  refine ⟨?_, ?_, ?_⟩
  · intro f g p0 w0 p1 w1 hf hg haf hag hpri hpw
    obtain ⟨a0, a1, a2, a3, a4, a5, a6, a7, a8, rfl⟩ := length_nine hf.1
    obtain ⟨c0, c1, c2, c3, c4, c5, c6, c7, c8, rfl⟩ := length_nine hg.1
    obtain ⟨-, -, ha2, ha3, ha4, ha5, ha6, -, -⟩ := IsFrame_bytes hf
    obtain ⟨-, -, hc2, hc3, hc4, hc5, hc6, -, -⟩ := IsFrame_bytes hg
    obtain ⟨ea0, ea8, ea1, ea2, ea7⟩ := accepted_bytes hf haf
    obtain ⟨ec0, ec8, ec1, ec2, ec7⟩ := accepted_bytes hg hag
    rw [DecodePacket_bytes ha2 ha3 ha4 ha5 ha6, DecodePacket_bytes hc2 hc3 hc4 hc5 hc6,
      if_neg (not_not.mpr ea0), if_neg (not_not.mpr ea8), if_neg (not_not.mpr ea1),
      if_neg (not_not.mpr ea2), if_neg (not_not.mpr ea7), if_neg (not_not.mpr ec0),
      if_neg (not_not.mpr ec8), if_neg (not_not.mpr ec1), if_neg (not_not.mpr ec2),
      if_neg (not_not.mpr ec7)] at hpri hpw
    simp only at hpri hpw
    have e5 : a5 = c5 := by omega
    have e6 : a6 = c6 := by omega
    have e3 : a3 = c3 := by omega
    have e4 : a4 = c4 := by omega
    rw [ea0, ea8, ea1, ea7, ec0, ec8, ec1, ec7, ea2, ec2, e3, e4, e5, e6]
  · intro f p0 w0 hf hacc
    obtain ⟨pri, pw, hp, hw, hd⟩ := DecodePacket_accepted_le hf hacc
    rw [hd p0 w0]
    exact ⟨hp, hw⟩
  · intro pri pw hpri hpw
    obtain ⟨h3, h4, hw⟩ := hi_lo pw hpw
    obtain ⟨h5, h6, hp⟩ := hi_lo pri hpri
    have h2 : (0x01 : Nat) < 256 := by norm_num
    have h7 := xor_byte (xor_byte (xor_byte (xor_byte h2 h3) h4) h5) h6
    refine ⟨encodeFrame pri pw,
      IsFrame_of_bytes ⟨by norm_num, by norm_num, h2, h3, h4, h5, h6, h7, by norm_num⟩, ?_⟩
    intro p0 w0
    unfold encodeFrame
    rw [DecodePacket_bytes h2 h3 h4 h5 h6, if_neg (by simp), if_neg (by simp),
      if_neg (by simp), if_neg (by simp), if_neg (by simp)]
    rw [shl8_or h4] at hw
    rw [shl8_or h6] at hp
    rw [hw, hp]

theorem DecodePacket_injective_witness :
    IsFrame goodFrame ∧ IsFrame (encodeFrame 1000 2) ∧
    (DecodePacket goodFrame 0 0).ret = 1 ∧ (DecodePacket (encodeFrame 1000 2) 7 7).ret = 1 ∧
    goodFrame = encodeFrame 1000 2 :=
  ⟨by decide, by decide, by decide, by decide,
    DecodePacket_injective.1 goodFrame (encodeFrame 1000 2) 0 0 7 7 (by decide) (by decide)
      (by decide) (by decide) (by decide) (by decide)⟩

/-- C17: when a 9-byte frame `g` differs from an accepted frame `f` in exactly
one byte position `i`, `DecodePacket` rejects `g`; the code sent is 0xE1 for
position 0, 0xE2 for position 1, 0xE3 for position 2, 0xE4 for positions 3 to
7 and 0xE5 for position 8, and the out-parameters are left alone. -/
theorem single_byte_corruption_rejected (f g : List Nat) (i p0 w0 p1 w1 : Nat)
    (hf : IsFrame f) (hg : IsFrame g) (hacc : (DecodePacket f p0 w0).ret = 1)
    (hi : i < 9) (hdiff : rd g i ≠ rd f i)
    (hsame : ∀ j, j < 9 → j ≠ i → rd g j = rd f j) :
    DecodePacket g p1 w1 =
      ⟨0, p1, w1,
        [Event.send
          (if i = 0 then 0xE1 else if i = 1 then 0xE2 else if i = 2 then 0xE3
           else if i = 8 then 0xE5 else 0xE4)]⟩ := by
  obtain ⟨a0, a1, a2, a3, a4, a5, a6, a7, a8, rfl⟩ := length_nine hf.1
  obtain ⟨c0, c1, c2, c3, c4, c5, c6, c7, c8, rfl⟩ := length_nine hg.1
  obtain ⟨-, -, hc2, hc3, hc4, hc5, hc6, -, -⟩ := IsFrame_bytes hg
  obtain ⟨ea0, ea8, ea1, ea2, ea7⟩ := accepted_bytes hf hacc
  have s0 := hsame 0 (by norm_num)
  have s1 := hsame 1 (by norm_num)
  have s2 := hsame 2 (by norm_num)
  have s3 := hsame 3 (by norm_num)
  have s4 := hsame 4 (by norm_num)
  have s5 := hsame 5 (by norm_num)
  have s6 := hsame 6 (by norm_num)
  have s7 := hsame 7 (by norm_num)
  have s8 := hsame 8 (by norm_num)
  rw [DecodePacket_bytes hc2 hc3 hc4 hc5 hc6]
  interval_cases i <;>
    simp [rd] at hdiff s0 s1 s2 s3 s4 s5 s6 s7 s8 <;>
    simp_all [Nat.xor_left_inj, Nat.xor_right_inj] <;>
    exact fun h => hdiff h.symm

theorem single_byte_corruption_rejected_witness :
    IsFrame goodFrame ∧ IsFrame (goodFrame.set 6 0xE9) ∧
    (DecodePacket goodFrame 0 0).ret = 1 ∧
    DecodePacket (goodFrame.set 6 0xE9) 5 5 = ⟨0, 5, 5, [Event.send 0xE4]⟩ :=
  ⟨by decide, by decide, by decide,
    single_byte_corruption_rejected goodFrame (goodFrame.set 6 0xE9) 6 0 0 5 5 (by decide)
      (by decide) (by decide) (by decide) (by decide) (by decide)⟩

end SignalGen
